import Mathlib

/-!
Verification development for a social-media downloader web application
(`app.py`).  The definitions below are a shallow embedding of the parts of
the source that the specification talks about: the format resolver inside
`get_info`, URL validation (`validate_url`) and platform classification
(`get_platform`), the download job table manipulated by `download`, and the
artifact retrieval logic of `get_file`.  External effects (the `yt_dlp`
provider, the filesystem, the database) are passed in as explicit
parameters.
-/

/-- One entry of the format list produced by `get_video_info`: a Python dict
with keys `format_id`, `ext`, `resolution` (the string `f"{w}x{h}"`, where a
missing dimension renders as `unknown`), `filesize`, `format_note`,
`vcodec`, `acodec`. -/
structure MediaFormat where
  format_id : String
  ext : String
  resolution : String
  filesize : Option Nat
  format_note : String
  vcodec : String
  acodec : String
deriving DecidableEq, Repr

/-- Splitting a character list on a separator, with the semantics of
Python's `str.split(sep)`: `"axxb"` splits into `["a", "", "b"]`. -/
def splitOnChar (sep : Char) : List Char → List (List Char)
  | [] => [[]]
  | c :: rest =>
    match splitOnChar sep rest with
    | [] => [[]]
    | g :: gs => if c = sep then [] :: g :: gs else (c :: g) :: gs

/-- Decimal parse of a character list, the successful case of Python's
`int(...)` on the strings this app produces (a rendered integer or a word
such as `unknown`, which raises `ValueError`, i.e. `none`). -/
def digitsToNat? (l : List Char) : Option Nat :=
  if l ≠ [] && l.all (fun c => c.isDigit) then
    some (l.foldl (fun n c => n * 10 + (c.toNat - 48)) 0)
  else none

/-- Model of `int(format['resolution'].split('x')[1])` in `get_info`:
take the component after the first `x` and parse it as a number; the
`ValueError`/`IndexError` branch (which makes the loop `continue`) is the
`none` result. -/
def parseHeight (s : String) : Option Nat :=
  match (splitOnChar 'x' s.data).get? 1 with
  | some t => digitsToNat? t
  | none => none

/-- The filter building `av_formats` in `get_info` (lines 280-293): both
codecs present, resolution not the `unknownxunknown` sentinel, container
mp4 or webm. -/
def isAV (f : MediaFormat) : Bool :=
  (f.vcodec != "none") && (f.acodec != "none") &&
    (f.resolution != "unknownxunknown") && (f.ext == "mp4" || f.ext == "webm")

/-- `target_resolutions = [144, 240, 360, 480, 720, 1080, 1440, 2160]`. -/
def targetResolutions : List Nat := [144, 240, 360, 480, 720, 1080, 1440, 2160]

/-- The `resolution_formats` dictionary, kept as an association list in
ascending key order (Python dicts preserve insertion order, and the final
iteration sorts by key anyway). -/
def initBuckets (α : Type) : List (Nat × Option α) :=
  targetResolutions.map (fun r => (r, none))

/-- The inner loop `for res in target_resolutions: if height <= res: (assign
if empty); break` of `get_info`: walk the buckets in ascending order, stop at
the first bucket whose value is `≥ h`, claim it only if it is still empty. -/
def claimBucket {α : Type} (h : Nat) (f : α) :
    List (Nat × Option α) → List (Nat × Option α)
  | [] => []
  | (r, slot) :: rest =>
    if h ≤ r then
      match slot with
      | none => (r, some f) :: rest
      | some g => (r, some g) :: rest
    else (r, slot) :: claimBucket h f rest

/-- One iteration of the outer `for format in av_formats` loop: parse the
height (on failure the loop body `continue`s) and run the bucket walk. -/
def assignStep {α : Type} (heightOf : α → Option Nat)
    (m : List (Nat × Option α)) (f : α) : List (Nat × Option α) :=
  match heightOf f with
  | none => m
  | some h => claimBucket h f m

/-- The whole assignment loop of `get_info` (lines 295-308), generic in the
payload so that it can also carry the position of each format in the raw
list (needed to model the in-place `format['format_note']` mutation). -/
def assignBucketsP {α : Type} (heightOf : α → Option Nat) (l : List α) :
    List (Nat × Option α) :=
  l.foldl (assignStep heightOf) (initBuckets α)

/-- Reading one bucket of the table. -/
def bucketSlot {α : Type} (r : Nat) (m : List (Nat × Option α)) : Option α :=
  match m.find? (fun p => p.1 == r) with
  | some p => p.2
  | none => none

/-- The key column of the bucket table. -/
def bucketKeys {α : Type} : List (Nat × Option α) → List Nat
  | [] => []
  | (r, _) :: rest => r :: bucketKeys rest

/-- The bucket the inner loop stops at: the first key with `h ≤ key`. -/
def firstFit (h : Nat) : List Nat → Option Nat
  | [] => none
  | k :: rest => if h ≤ k then some k else firstFit h rest

/-- The smallest target resolution that is `≥` the format's height, i.e. the
only bucket the code ever offers a format to. -/
def smallestBucketP {α : Type} (heightOf : α → Option Nat) (f : α) : Option Nat :=
  match heightOf f with
  | none => none
  | some h => firstFit h targetResolutions

/-- Height of a `MediaFormat` as computed in `get_info`. -/
def heightOfFmt (f : MediaFormat) : Option Nat := parseHeight f.resolution

/-- Bucket assignment of `get_info` on the raw format list. -/
def assignBuckets (fmts : List MediaFormat) : List (Nat × Option MediaFormat) :=
  assignBucketsP heightOfFmt (fmts.filter isAV)

def smallestBucket (f : MediaFormat) : Option Nat :=
  smallestBucketP heightOfFmt f

/-- Modelled from the spec (§4.3 step 2, quoted by claim C1): for each of
the eight buckets in ascending order, assign the first format in provider
order whose height is `≤` the bucket value and that has not already been
claimed by a smaller bucket.  This is the claim's algorithm, written down to
be compared with `assignBuckets`, the one actually in the code. -/
def specAssignGo (avail : List MediaFormat) :
    List Nat → List (Nat × Option MediaFormat)
  | [] => []
  | r :: rest =>
    match avail.find? (fun f =>
        match heightOfFmt f with
        | some h => decide (h ≤ r)
        | none => false) with
    | some f => (r, some f) :: specAssignGo (avail.erase f) rest
    | none => (r, none) :: specAssignGo avail rest

/-- Modelled from the spec: bucket assignment as claim C1 describes it. -/
def specAssign (fmts : List MediaFormat) : List (Nat × Option MediaFormat) :=
  specAssignGo (fmts.filter isAV) targetResolutions

/-- `format['format_note'] = f"{res}p"` — the relabeling applied to a format
when its bucket is emitted. -/
def setNote (s : String) (f : MediaFormat) : MediaFormat :=
  { f with format_note := s }

/-- The synthetic best-quality fallback appended when no bucket was filled
(`get_info` lines 319-327). -/
def bestEntry : MediaFormat :=
  { format_id := "best[ext=mp4]/best", ext := "mp4", resolution := "Best quality",
    filesize := none, format_note := "Best quality", vcodec := "h264", acodec := "aac" }

/-- The synthetic audio-only entry always appended last (lines 330-337). -/
def audioEntry : MediaFormat :=
  { format_id := "bestaudio", ext := "mp3", resolution := "Audio only",
    filesize := none, format_note := "MP3 Audio", vcodec := "none", acodec := "mp3" }

/-- `av_formats` with each format paired with its position in the raw list;
the position stands in for Python object identity, so that the in-place
`format_note` mutation can be reflected back into the raw list. -/
def avIndexed (fmts : List MediaFormat) : List (Nat × MediaFormat) :=
  fmts.enum.filter (fun p => isAV p.2)

def heightOfIdx (p : Nat × MediaFormat) : Option Nat := parseHeight p.2.resolution

def assignedBuckets (fmts : List MediaFormat) : List (Nat × Option (Nat × MediaFormat)) :=
  assignBucketsP heightOfIdx (avIndexed fmts)

/-- The final `for res, format in sorted(resolution_formats.items())` loop:
emit the filled buckets in ascending order, relabeling each format's note to
`"{res}p"`. -/
def curatedList (m : List (Nat × Option (Nat × MediaFormat))) : List MediaFormat :=
  m.filterMap (fun p => p.2.map (fun q => setNote (toString p.1 ++ "p") q.2))

/-- The note that the curation pass wrote into the raw-list element at
position `i`, if that element claimed a bucket. -/
def noteFor (m : List (Nat × Option (Nat × MediaFormat))) (i : Nat) : Option String :=
  (m.find? (fun p =>
      match p.2 with
      | some q => q.1 == i
      | none => false)).map (fun p => toString p.1 ++ "p")

/-- The whole curation pass of `get_info` (lines 274-339) as a pure function:
first component is the curated menu returned to the client, second is the
raw format list as left behind by the in-place `format_note` mutations. -/
def resolveState (fmts : List MediaFormat) : List MediaFormat × List MediaFormat :=
  let m := assignedBuckets fmts
  let curated := curatedList m
  let menu := (if curated.isEmpty then [bestEntry] else curated) ++ [audioEntry]
  let mutated := fmts.enum.map (fun p =>
    match noteFor m p.1 with
    | some s => setNote s p.2
    | none => p.2)
  (menu, mutated)

/-- The curated menu `get_info` serves. -/
def resolve (fmts : List MediaFormat) : List MediaFormat := (resolveState fmts).1

/-- Forgetting the `format_note` field — the only field the curation pass
mutates in place. -/
def eraseNote (f : MediaFormat) : MediaFormat := { f with format_note := "" }

/-! ## URL classifier: regular expressions, `urlparse`, `validate_url`, `get_platform` -/

/-- Regular expressions as used by the platform patterns in `validate_url`:
character predicates (classes), the empty word, concatenation, alternation
and Kleene star.  Capturing and non-capturing groups of the Python source
only affect the returned match object, never whether a match exists, so
they are represented by their inner expression. -/
inductive RE where
  | char (p : Char → Bool)
  | eps
  | seq (a b : RE)
  | alt (a b : RE)
  | star (a : RE)

/-- Does the regex accept the empty word? -/
def RE.nullable : RE → Bool
  | .char _ => false
  | .eps => true
  | .seq a b => a.nullable && b.nullable
  | .alt a b => a.nullable || b.nullable
  | .star _ => true

/-- Brzozowski derivative: the language after consuming `c`. -/
def RE.deriv : RE → Char → RE
  | .char p, c => if p c then .eps else .char (fun _ => false)
  | .eps, _ => .char (fun _ => false)
  | .seq a b, c =>
    if a.nullable then .alt (.seq (a.deriv c) b) (b.deriv c) else .seq (a.deriv c) b
  | .alt a b, c => .alt (a.deriv c) (b.deriv c)
  | .star a, c => .seq (a.deriv c) (.star a)

/-- Does some prefix of `l` match `r`? -/
def matchHere (r : RE) : List Char → Bool
  | [] => r.nullable
  | c :: rest => r.nullable || matchHere (r.deriv c) rest

/-- Model of Python's `re.search(r, s)` viewed as a boolean: does `r` match
somewhere inside `s`? -/
def reSearch (r : RE) : List Char → Bool
  | [] => matchHere r []
  | c :: rest => matchHere r (c :: rest) || reSearch r rest

/-- Literal string regex (each character escaped or self-matching in the
source patterns). -/
def reLit (s : String) : RE :=
  s.data.foldr (fun c r => RE.seq (.char (fun x => x == c)) r) .eps

/-- One-or-more repetition, Python `+`. -/
def rePlus (r : RE) : RE := .seq r (.star r)

/-- Zero-or-one repetition, Python `?`. -/
def reOpt (r : RE) : RE := .alt r .eps

/-- Python `.`: any character except a newline. -/
def reDot : RE := .char (fun c => c != '\n')

/-- Python `\d`. -/
def reDigit : RE := .char (fun c => c.isDigit)

/-- A negated character class `[^...]`. -/
def reNotIn (cs : List Char) : RE := .char (fun c => !(cs.contains c))

def apostrophe : Char := Char.ofNat 39

def quoteChar : Char := Char.ofNat 34

/-- `r'(youtu\.be\/|youtube\.com\/(watch\?(.*&)?v=|(embed|v)\/))([^?&"\'>]+)'` -/
def ytPattern1 : RE :=
  .seq
    (.alt (reLit "youtu.be/")
      (.seq (reLit "youtube.com/")
        (.alt
          (.seq (reLit "watch?") (.seq (reOpt (.seq (.star reDot) (reLit "&"))) (reLit "v=")))
          (.seq (.alt (reLit "embed") (reLit "v")) (reLit "/")))))
    (rePlus (reNotIn ['?', '&', quoteChar, apostrophe, '>']))

/-- `r'youtube\.com\/shorts\/([^?&"\'>]+)'` -/
def ytPattern2 : RE :=
  .seq (reLit "youtube.com/shorts/")
    (rePlus (reNotIn ['?', '&', quoteChar, apostrophe, '>']))

/-- `r'instagram\.com\/(?:p|reel)\/([^/?]+)'` -/
def igPattern1 : RE :=
  .seq (reLit "instagram.com/")
    (.seq (.alt (reLit "p") (reLit "reel"))
      (.seq (reLit "/") (rePlus (reNotIn ['/', '?']))))

/-- `r'instagram\.com\/stories\/([^/?]+)\/([^/?]+)'` -/
def igPattern2 : RE :=
  .seq (reLit "instagram.com/stories/")
    (.seq (rePlus (reNotIn ['/', '?']))
      (.seq (reLit "/") (rePlus (reNotIn ['/', '?']))))

/-- `r'facebook\.com\/[^\/]+\/videos\/([^/?]+)'` -/
def fbPattern1 : RE :=
  .seq (reLit "facebook.com/")
    (.seq (rePlus (reNotIn ['/']))
      (.seq (reLit "/videos/") (rePlus (reNotIn ['/', '?']))))

/-- `r'facebook\.com\/watch\/?\?v=([^&]+)'` -/
def fbPattern2 : RE :=
  .seq (reLit "facebook.com/watch")
    (.seq (reOpt (reLit "/"))
      (.seq (reLit "?v=") (rePlus (reNotIn ['&']))))

/-- `r'fb\.watch\/([^/?]+)'` -/
def fbPattern3 : RE :=
  .seq (reLit "fb.watch/") (rePlus (reNotIn ['/', '?']))

/-- `r'twitter\.com\/[^\/]+\/status\/(\d+)'` -/
def twPattern1 : RE :=
  .seq (reLit "twitter.com/")
    (.seq (rePlus (reNotIn ['/'])) (.seq (reLit "/status/") (rePlus reDigit)))

/-- `r'x\.com\/[^\/]+\/status\/(\d+)'` -/
def twPattern2 : RE :=
  .seq (reLit "x.com/")
    (.seq (rePlus (reNotIn ['/'])) (.seq (reLit "/status/") (rePlus reDigit)))

/-- `r'tiktok\.com\/@([^\/]+)\/video\/(\d+)'` -/
def ttPattern1 : RE :=
  .seq (reLit "tiktok.com/@")
    (.seq (rePlus (reNotIn ['/'])) (.seq (reLit "/video/") (rePlus reDigit)))

/-- `r'tiktok\.com\/t\/([^/?]+)'` -/
def ttPattern2 : RE :=
  .seq (reLit "tiktok.com/t/") (rePlus (reNotIn ['/', '?']))

/-- `r'reddit\.com\/r\/[^\/]+\/comments\/([^\/]+)'` -/
def rdPattern1 : RE :=
  .seq (reLit "reddit.com/r/")
    (.seq (rePlus (reNotIn ['/'])) (.seq (reLit "/comments/") (rePlus (reNotIn ['/']))))

/-- `r'v\.redd\.it\/([^/?]+)'` -/
def rdPattern2 : RE :=
  .seq (reLit "v.redd.it/") (rePlus (reNotIn ['/', '?']))

/-- One entry of the `patterns` dictionary in `validate_url`. -/
structure Platform where
  name : String
  domains : List String
  patterns : List RE

/-- The `youtube` entry of the `patterns` dictionary. -/
def ytPlatform : Platform :=
  { name := "youtube",
    domains := ["www.youtube.com", "youtube.com", "youtu.be", "m.youtube.com"],
    patterns := [ytPattern1, ytPattern2] }

/-- The `instagram` entry. -/
def igPlatform : Platform :=
  { name := "instagram",
    domains := ["www.instagram.com", "instagram.com"],
    patterns := [igPattern1, igPattern2] }

/-- The `facebook` entry. -/
def fbPlatform : Platform :=
  { name := "facebook",
    domains := ["www.facebook.com", "facebook.com", "fb.com", "fb.watch", "m.facebook.com"],
    patterns := [fbPattern1, fbPattern2, fbPattern3] }

/-- The `twitter` entry. -/
def twPlatform : Platform :=
  { name := "twitter",
    domains := ["www.twitter.com", "twitter.com", "x.com", "www.x.com"],
    patterns := [twPattern1, twPattern2] }

/-- The `tiktok` entry. -/
def ttPlatform : Platform :=
  { name := "tiktok",
    domains := ["www.tiktok.com", "tiktok.com", "vm.tiktok.com"],
    patterns := [ttPattern1, ttPattern2] }

/-- The `reddit` entry. -/
def rdPlatform : Platform :=
  { name := "reddit",
    domains := ["www.reddit.com", "reddit.com", "v.redd.it"],
    patterns := [rdPattern1, rdPattern2] }

/-- The `patterns` dictionary of `validate_url`, in source order. -/
def platforms : List Platform :=
  [ytPlatform, igPlatform, fbPlatform, twPlatform, ttPlatform, rdPlatform]

/-- ASCII lowercasing, the effect of Python's `str.lower()` on the hostname
strings involved. -/
def lowerString (s : String) : String :=
  String.mk (s.data.map Char.toLower)

/-- Split a character list at the first occurrence of `sep`; `none` when
`sep` does not occur. -/
def splitFirst (sep : Char) : List Char → Option (List Char × List Char)
  | [] => none
  | c :: rest =>
    if c = sep then some ([], rest)
    else (splitFirst sep rest).map (fun p => (c :: p.1, p.2))

/-- The characters allowed in a URL scheme by `urllib.parse`. -/
def schemeChar (c : Char) : Bool :=
  c.isAlpha || c.isDigit || c == '+' || c == '-' || c == '.'

/-- Result of `urllib.parse.urlparse` restricted to the fields the app
reads (`netloc`) plus the path/query components used to state claims about
where inside the URL a pattern occurred. -/
structure ParsedUrl where
  scheme : String
  netloc : String
  path : String
  query : String
  fragment : String
deriving DecidableEq, Repr

/-- Model of CPython's `urlsplit` on the inputs this app handles: strip a
valid `scheme:` prefix, read the netloc after `//` up to the first of
`/?#`, then split off the fragment at the first `#` and the query at the
first `?`.  (The `;` parameter splitting of `urlparse` only applies to the
last path segment and is irrelevant to every claim; netloc character
validation is not modelled.) -/
def urlsplit (url : String) : ParsedUrl :=
  let l := url.data
  let (scheme, rest) :=
    match splitFirst ':' l with
    | some (pre, post) =>
      if pre ≠ [] && (pre.headD ' ').isAlpha && pre.all schemeChar then
        (lowerString (String.mk pre), post)
      else ("", l)
    | none => ("", l)
  let (netloc, rest2) :=
    match rest with
    | '/' :: '/' :: r =>
      (r.takeWhile (fun c => c != '/' && c != '?' && c != '#'),
       r.dropWhile (fun c => c != '/' && c != '?' && c != '#'))
    | _ => ([], rest)
  let (beforeFrag, frag) :=
    match splitFirst '#' rest2 with
    | some (b, f) => (b, f)
    | none => (rest2, [])
  let (path, query) :=
    match splitFirst '?' beforeFrag with
    | some (p, q) => (p, q)
    | none => (beforeFrag, [])
  { scheme := scheme, netloc := String.mk netloc, path := String.mk path,
    query := String.mk query, fragment := String.mk frag }

/-- The body of `validate_url` with the hostname (`parsed_url.netloc.lower()`)
already extracted: walk the platform dictionary; on a platform whose domain
list contains the hostname, return true as soon as one of its patterns
matches anywhere in the full URL; otherwise keep looking and finally return
false. -/
def validateHost (hostname : String) (url : String) : Bool :=
  platforms.any (fun p =>
    p.domains.any (fun d => d == hostname) && p.patterns.any (fun r => reSearch r url.data))

/-- `validate_url` (lines 92-158). -/
def validate_url (url : String) : Bool :=
  validateHost (lowerString (urlsplit url).netloc) url

/-- The hostname dispatch of `get_platform` (lines 160-189). -/
def platformOfHost (hostname : String) : String :=
  if hostname ∈ ["www.youtube.com", "youtube.com", "youtu.be", "m.youtube.com"] then "youtube"
  else if hostname ∈ ["www.instagram.com", "instagram.com"] then "instagram"
  else if hostname ∈ ["www.facebook.com", "facebook.com", "fb.com", "fb.watch", "m.facebook.com"]
    then "facebook"
  else if hostname ∈ ["www.twitter.com", "twitter.com", "x.com", "www.x.com"] then "twitter"
  else if hostname ∈ ["www.tiktok.com", "tiktok.com", "vm.tiktok.com"] then "tiktok"
  else if hostname ∈ ["www.reddit.com", "reddit.com", "v.redd.it"] then "reddit"
  else "unknown"

/-- `get_platform` (lines 160-189). -/
def get_platform (url : String) : String :=
  platformOfHost (lowerString (urlsplit url).netloc)

/-! ## Filename sanitization (`get_file`, lines 488-491) -/

/-- ASCII model of Python's `\s` (and of the characters `str.strip()`
removes): space, tab, newline, carriage return, vertical tab, form feed. -/
def isPySpace (c : Char) : Bool :=
  c == ' ' || c == '\t' || c == '\n' || c == '\r' ||
    c == Char.ofNat 11 || c == Char.ofNat 12

/-- ASCII model of Python's `\w`: letters, digits, underscore. -/
def isPyWord (c : Char) : Bool := c.isAlphanum || c == '_'

/-- A character the substitution `re.sub(r'[^\w\s-]', '', title)` keeps. -/
def keepChar (c : Char) : Bool := isPyWord c || isPySpace c || c == '-'

/-- `re.sub(r'[^\w\s-]', '', s)`. -/
def pySubKeep (s : String) : String := String.mk (s.data.filter keepChar)

/-- `s.strip()`. -/
def pyStrip (s : String) : String :=
  String.mk (((s.data.dropWhile isPySpace).reverse.dropWhile isPySpace).reverse)

/-- `s.replace(' ', '_')`: every space character becomes an underscore;
no other character — in particular no other whitespace character — is
touched. -/
def pyReplaceSpace (s : String) : String :=
  String.mk (s.data.map (fun c => if c == ' ' then '_' else c))

/-- `title = re.sub(r'[^\w\s-]', '', title).strip().replace(' ', '_')`. -/
def sanitizeTitle (s : String) : String := pyReplaceSpace (pyStrip (pySubKeep s))

/-- Modelled from the spec's words in claim C4: strip all characters
outside word characters, whitespace and hyphen, trim, then replace each
internal whitespace character with an underscore. -/
def sanitizeClaimed (s : String) : String :=
  String.mk
    ((((s.data.filter keepChar).dropWhile isPySpace).reverse.dropWhile
        isPySpace).reverse.map (fun c => if isPySpace c then '_' else c))

/-- Modelled from the amended claim: strip all characters outside word
characters, whitespace and hyphen, trim, then replace each space character
`' '` (only) with an underscore. -/
def sanitizeAmended (s : String) : String :=
  String.mk
    ((((s.data.filter keepChar).dropWhile isPySpace).reverse.dropWhile
        isPySpace).reverse.map (fun c => if c == ' ' then '_' else c))

/-! ## Job table, `download` endpoint and `get_file` endpoint -/

/-- One value of the global `downloads` dictionary (`download`, lines
428-435). -/
structure DownloadInfo where
  url : String
  format_id : String
  output_file : String
  ext : String
  status : String
deriving DecidableEq, Repr

/-- `downloads[k]`, returning `none` for a missing key. -/
def lookupJob (table : List (String × DownloadInfo)) (k : String) :
    Option DownloadInfo :=
  (table.find? (fun p => p.1 == k)).map (fun p => p.2)

/-- `downloads[k] = v`: replace the binding if the key exists, otherwise
append it (Python dicts keep insertion order). -/
def insertJob (table : List (String × DownloadInfo)) (k : String)
    (v : DownloadInfo) : List (String × DownloadInfo) :=
  if (table.find? (fun p => p.1 == k)).isSome then
    table.map (fun p => if p.1 == k then (k, v) else p)
  else table ++ [(k, v)]

/-- The metadata `ydl.extract_info` returns inside `download`. -/
structure ExtractInfo where
  video_id : Option String
  title : Option String
  thumbnail : Option String
  duration : Option Nat
  formats : List MediaFormat

/-- The `Download` row written to the database after a successful download. -/
structure HistoryRecord where
  video_id : Option String
  title : Option String
  format : String
  platform : String
  filesize : Option Nat
  thumbnail_url : Option String
  duration : Option Nat
deriving DecidableEq, Repr

/-- HTTP outcome of `POST /download`. -/
inductive DownloadResult where
  | badRequest
  | ok (download_id : String)
  | serverError
deriving DecidableEq, Repr

/-- `request.form.get(...)` is falsy: the field is missing or empty. -/
def isBlank : Option String → Bool
  | none => true
  | some s => s == ""

/-- The container extension the `download` route settles on: the selected
format's `ext` (default mp4 when the id is not found among the re-fetched
formats), overridden to mp3 for the audio sentinel and to mp4 for the
best-quality sentinel. -/
def requestExt (info : ExtractInfo) (format_id : String) : String :=
  let ext0 :=
    match info.formats.find? (fun f => f.format_id == format_id) with
    | some f => f.ext
    | none => "mp4"
  if format_id == "bestaudio" then "mp3"
  else if format_id == "best[ext=mp4]/best" then "mp4"
  else ext0

/-- The dictionary stored under `downloads[download_id]` just before
`ydl.download` runs (lines 428-435). -/
def recordedEntry (url format_id tempDir newId : String) (info : ExtractInfo) :
    DownloadInfo :=
  { url := url, format_id := format_id,
    output_file := tempDir ++ "/" ++ newId ++ "." ++ requestExt info format_id,
    ext := requestExt info format_id, status := "downloading" }

/-- The `download` route (lines 345-467) as a pure function.  External
effects are parameters: `newId` is the generated `uuid4`, `extract` the
result of the metadata call (`.error` models a raised exception), `dl` the
result of `ydl.download`, and `actualSize` is `os.path.getsize` when the
output file exists.  The `ydl_opts` selector handed to the provider
(including the `+bestaudio[ext=m4a]` upgrade for video-only formats) only
configures the external process and is not recorded anywhere, so it is not
modelled.  Returns the HTTP outcome, the job table afterwards, and the
history row written (if any). -/
def download_route (table : List (String × DownloadInfo))
    (url? format? : Option String) (tempDir newId : String)
    (extract : Except Unit ExtractInfo) (dl : Except Unit Unit)
    (actualSize : Option Nat) :
    DownloadResult × List (String × DownloadInfo) × Option HistoryRecord :=
  if isBlank url? || isBlank format? then (.badRequest, table, none)
  else
    let url := url?.getD ""
    let format_id := format?.getD ""
    if !validate_url url then (.badRequest, table, none)
    else
      let platform := get_platform url
      match extract with
      | .error _ => (.serverError, table, none)
      | .ok info =>
        let provSize : Option Nat :=
          (info.formats.find? (fun f => f.format_id == format_id)).bind
            (fun f => f.filesize)
        let entry := recordedEntry url format_id tempDir newId info
        let table1 := insertJob table newId entry
        match dl with
        | .error _ => (.serverError, table1, none)
        | .ok _ =>
          let table2 := insertJob table1 newId { entry with status := "completed" }
          let hist : HistoryRecord :=
            { video_id := info.video_id, title := info.title,
              format := format_id ++ " (" ++ requestExt info format_id ++ ")",
              platform := platform,
              filesize := (match actualSize with | some n => some n | none => provSize),
              thumbnail_url := info.thumbnail, duration := info.duration }
          (.ok newId, table2, some hist)

/-- HTTP outcome of `GET /get_file/<download_id>`. -/
inductive GetFileResult where
  | notFound
  | notReady
  | file (path : String) (filename : String) (mimetype : String)
  | serverError
deriving DecidableEq, Repr

/-- The `get_file` route (lines 469-501): 404 for an unknown id, 400 for a
job that is not `completed`, otherwise re-fetch the title (`titleFetch`
models `ydl.extract_info`; `.error` is a raised exception, surfaced as 500,
and a missing title defaults to `"video"`), sanitize it, and serve the
stored file under `{platform}_{title}.{ext}` with an `audio/*` mimetype for
mp3 and `video/*` otherwise. -/
def get_file (table : List (String × DownloadInfo)) (download_id : String)
    (titleFetch : Except Unit (Option String)) : GetFileResult :=
  match lookupJob table download_id with
  | none => .notFound
  | some info =>
    if info.status != "completed" then .notReady
    else
      match titleFetch with
      | .error _ => .serverError
      | .ok t =>
        let platform := get_platform info.url
        let title := sanitizeTitle (t.getD "video")
        let filename := platform ++ "_" ++ title ++ "." ++ info.ext
        .file info.output_file filename
          ((if info.ext == "mp3" then "audio" else "video") ++ "/" ++ info.ext)

/-! ## Example inputs used by the claim theorems and witnesses -/

/-- Two AV-eligible formats that compete for the same smallest bucket. -/
def competingFormats : List MediaFormat :=
  [{ format_id := "first", ext := "mp4", resolution := "100x100", filesize := none,
     format_note := "", vcodec := "avc1", acodec := "mp4a" },
   { format_id := "second", ext := "mp4", resolution := "100x100", filesize := none,
     format_note := "", vcodec := "avc1", acodec := "mp4a" }]

/-- The first provider format of the spec's worked example: height 700. -/
def providerA : MediaFormat :=
  { format_id := "A", ext := "mp4", resolution := "1280x700", filesize := some 1000,
    format_note := "", vcodec := "avc1", acodec := "mp4a" }

/-- The second provider format of the spec's worked example: height 150. -/
def providerB : MediaFormat :=
  { format_id := "B", ext := "webm", resolution := "256x150", filesize := none,
    format_note := "", vcodec := "vp9", acodec := "opus" }

/-- A raw format list with a single, audio-only (hence not AV-eligible)
format. -/
def audioOnlyRaw : MediaFormat :=
  { format_id := "140", ext := "m4a", resolution := "audio only", filesize := some 999,
    format_note := "", vcodec := "none", acodec := "mp4a.40.2" }

/-- A completed job entry used to exercise the retrieval contract. -/
def doneJob : DownloadInfo :=
  { url := "https://youtu.be/abc", format_id := "22",
    output_file := "/tmp/job1.mp4", ext := "mp4", status := "completed" }

/-- A still-running job entry. -/
def pendingJob : DownloadInfo :=
  { url := "https://youtu.be/def", format_id := "18",
    output_file := "/tmp/job2.mp4", ext := "mp4", status := "downloading" }

def jobTable : List (String × DownloadInfo) := [("done", doneJob), ("pending", pendingJob)]

/-- Concrete metadata for the C9 witness. -/
def wInfo : ExtractInfo :=
  { video_id := some "abc", title := some "T", thumbnail := none, duration := some 10,
    formats := [providerA] }

/-- A YouTube-hostname URL whose path matches no pattern but whose query
string contains a `youtu.be/<id>` occurrence. -/
def queryTrickUrl : String := "https://www.youtube.com/feed?u=youtu.be/abc123"

/-! ## Characterization of the bucket-assignment loop -/

theorem claimBucket_keys {α : Type} (h : Nat) (f : α) (m : List (Nat × Option α)) :
    bucketKeys (claimBucket h f m) = bucketKeys m := by
  induction m with
  | nil => rfl
  | cons p rest ih =>
    obtain ⟨r, slot⟩ := p
    by_cases hle : h ≤ r
    · cases slot <;> simp [claimBucket, hle, bucketKeys]
    · simp [claimBucket, hle, bucketKeys, ih]

theorem bucketSlot_nil {α : Type} (r : Nat) : bucketSlot r ([] : List (Nat × Option α)) = none :=
  rfl

theorem bucketSlot_cons {α : Type} (r k : Nat) (slot : Option α)
    (rest : List (Nat × Option α)) :
    bucketSlot r ((k, slot) :: rest) = cond (k == r) slot (bucketSlot r rest) := by
  unfold bucketSlot
  rw [List.find?_cons]
  cases hkr : (k == r) <;> simp

theorem firstFit_mem {h x : Nat} : ∀ {l : List Nat}, firstFit h l = some x → x ∈ l := by
  intro l
  induction l with
  | nil => intro hf; simp [firstFit] at hf
  | cons y ys ih =>
    intro hf
    by_cases hy : h ≤ y
    · simp [firstFit, hy] at hf
      simp [hf]
    · simp [firstFit, hy] at hf
      simp [ih hf]

theorem bucketSlot_claimBucket {α : Type} (h : Nat) (f : α) (r : Nat) :
    ∀ (m : List (Nat × Option α)), (bucketKeys m).Nodup →
    bucketSlot r (claimBucket h f m) =
      cond ((firstFit h (bucketKeys m) == some r) && (bucketSlot r m).isNone)
        (some f) (bucketSlot r m) := by
  intro m
  induction m with
  | nil => intro _; simp [claimBucket, bucketSlot, bucketKeys, firstFit]
  | cons p rest ih =>
    intro hnd
    obtain ⟨k, slot⟩ := p
    have hnd' : k ∉ bucketKeys rest ∧ (bucketKeys rest).Nodup := by
      rw [show bucketKeys ((k, slot) :: rest) = k :: bucketKeys rest from rfl] at hnd
      exact List.nodup_cons.mp hnd
    by_cases hle : h ≤ k
    · have hcb : claimBucket h f ((k, slot) :: rest) =
          (k, (match slot with | none => some f | some g => some g)) :: rest := by
        cases slot <;> simp [claimBucket, hle]
      by_cases hkr : k = r
      · subst hkr
        cases slot <;>
          simp [hcb, bucketSlot_cons, bucketKeys, firstFit, hle]
      · have hkr' : (k == r) = false := by simpa using hkr
        cases slot <;>
          simp [hcb, bucketSlot_cons, bucketKeys, firstFit, hle, hkr']
    · have hcb : claimBucket h f ((k, slot) :: rest) = (k, slot) :: claimBucket h f rest := by
        simp [claimBucket, hle]
      by_cases hkr : k = r
      · subst hkr
        have hfind : (firstFit h (bucketKeys rest) == some k) = false := by
          cases hf : firstFit h (bucketKeys rest) with
          | none => rfl
          | some x =>
            have hxk : x ≠ k := fun hxk => hnd'.1 (hxk ▸ firstFit_mem hf)
            simpa using hxk
        simp [hcb, bucketSlot_cons, bucketKeys, firstFit, hle, hfind]
      · have hkr' : (k == r) = false := by simpa using hkr
        simp [hcb, bucketSlot_cons, bucketKeys, firstFit, hle, hkr', ih hnd'.2]

theorem assignStep_keys {α : Type} (hf : α → Option Nat) (m : List (Nat × Option α))
    (f : α) : bucketKeys (assignStep hf m f) = bucketKeys m := by
  unfold assignStep
  cases hf f with
  | none => rfl
  | some h => exact claimBucket_keys h f m

theorem bucketSlot_map_none {α : Type} (r : Nat) :
    ∀ ks : List Nat, bucketSlot r (ks.map (fun k => ((k, none) : Nat × Option α))) = none := by
  intro ks
  induction ks with
  | nil => rfl
  | cons k ks ih =>
    rw [List.map_cons, bucketSlot_cons]
    cases (k == r) <;> simp [ih]

theorem assignP_slot_go {α : Type} (hf : α → Option Nat) (r : Nat) :
    ∀ (l : List α) (m : List (Nat × Option α)), bucketKeys m = targetResolutions →
      bucketSlot r (List.foldl (assignStep hf) m l) =
        (bucketSlot r m).or
          ((l.filter (fun f => smallestBucketP hf f == some r)).head?) := by
  intro l
  induction l with
  | nil =>
    intro m _
    cases hbs : bucketSlot r m <;> simp [hbs]
  | cons f l ih =>
    intro m hk
    have hk' : bucketKeys (assignStep hf m f) = targetResolutions := by
      rw [assignStep_keys, hk]
    rw [List.foldl_cons, ih _ hk']
    cases hff : hf f with
    | none =>
      have h1 : assignStep hf m f = m := by simp [assignStep, hff]
      have h2 : (smallestBucketP hf f == some r) = false := by simp [smallestBucketP, hff]
      rw [h1, List.filter_cons]
      simp [h2]
    | some h =>
      have h1 : assignStep hf m f = claimBucket h f m := by simp [assignStep, hff]
      have hnd : (bucketKeys m).Nodup := by rw [hk]; decide
      have hsb : smallestBucketP hf f = firstFit h targetResolutions := by
        simp [smallestBucketP, hff]
      rw [h1, bucketSlot_claimBucket h f r m hnd, List.filter_cons, hk, hsb]
      by_cases hfr : firstFit h targetResolutions = some r
      · have hbeq : (firstFit h targetResolutions == some r) = true := by simp [hfr]
        by_cases hslot : bucketSlot r m = none
        · simp [hbeq, hslot]
        · obtain ⟨g, hg⟩ := Option.ne_none_iff_exists'.mp hslot
          simp [hbeq, hg]
      · have hbeq : (firstFit h targetResolutions == some r) = false := by
          simpa using hfr
        simp [hbeq]

theorem assignP_slot {α : Type} (hf : α → Option Nat) (l : List α) (r : Nat) :
    bucketSlot r (assignBucketsP hf l) =
      (l.filter (fun f => smallestBucketP hf f == some r)).head? := by
  unfold assignBucketsP
  rw [assignP_slot_go hf r l (initBuckets α) (by rfl)]
  have hinit : bucketSlot r (initBuckets α) = none := bucketSlot_map_none r targetResolutions
  rw [hinit, Option.none_or]

/-! ## Claim C1 -/

/-- C1, counterexample: on two AV-eligible formats of height 100 the code's
bucket assignment differs from the claim's algorithm — the claim fills
bucket 240 with the second format (the first format having been claimed by
bucket 144), whereas the code discards the second format entirely because
its smallest qualifying bucket 144 is already taken, leaving bucket 240
empty. -/
theorem claim1_counterexample :
    assignBuckets competingFormats ≠ specAssign competingFormats ∧
    bucketSlot 240 (assignBuckets competingFormats) = none ∧
    (bucketSlot 240 (specAssign competingFormats)).isSome = true := by
  decide

/-- C1 (amended): for every raw format list, each resolution bucket is
assigned the first AV-eligible format in provider order whose *smallest*
qualifying bucket (the least of the eight values `≥` its height) is that
bucket; hence at most one format is assigned per bucket, and a format whose
smallest qualifying bucket was already claimed is discarded rather than
offered to larger buckets. -/
theorem claim1_first_fit_characterization (fmts : List MediaFormat) (r : Nat) :
    bucketSlot r (assignBuckets fmts) =
      ((fmts.filter isAV).filter (fun f => smallestBucket f == some r)).head? := by
  unfold assignBuckets smallestBucket
  exact assignP_slot heightOfFmt (fmts.filter isAV) r

/-! ## Claim C2 -/

/-- C2: on the input `[A (height 700), B (height 150)]` the curated menu is
exactly B relabeled "240p", then A relabeled "720p", then the synthetic
audio-only entry — three entries in ascending bucket order — and bucket 144
stays empty. -/
theorem claim2_concrete_curation :
    resolve [providerA, providerB] =
      [setNote "240p" providerB, setNote "720p" providerA, audioEntry] ∧
    (resolve [providerA, providerB]).length = 3 ∧
    bucketSlot 144 (assignedBuckets [providerA, providerB]) = none := by
  decide

/-! ## Claim C3 -/

/-- C3: when no raw format is AV-eligible, the curated menu is exactly the
synthetic best-quality fallback (`best[ext=mp4]/best`, mp4) followed by the
synthetic audio-only entry (`bestaudio`, mp3, vcodec "none"); in particular
it is never empty. -/
theorem claim3_no_av_two_entries (fmts : List MediaFormat)
    (h : ∀ f ∈ fmts, isAV f = false) :
    resolve fmts =
      [{ format_id := "best[ext=mp4]/best", ext := "mp4", resolution := "Best quality",
         filesize := none, format_note := "Best quality", vcodec := "h264", acodec := "aac" },
       { format_id := "bestaudio", ext := "mp3", resolution := "Audio only",
         filesize := none, format_note := "MP3 Audio", vcodec := "none", acodec := "mp3" }] := by
  have hav : avIndexed fmts = [] := by
    unfold avIndexed
    rw [List.filter_eq_nil_iff]
    intro p hp
    have hmem : p.2 ∈ fmts := by
      have := List.mem_enum_iff_getElem?.mp hp
      exact List.getElem?_mem this
    simp [h _ hmem]
  unfold resolve resolveState assignedBuckets
  rw [hav]
  rfl

theorem claim3_witness :
    resolve [audioOnlyRaw] =
      [{ format_id := "best[ext=mp4]/best", ext := "mp4", resolution := "Best quality",
         filesize := none, format_note := "Best quality", vcodec := "h264", acodec := "aac" },
       { format_id := "bestaudio", ext := "mp3", resolution := "Audio only",
         filesize := none, format_note := "MP3 Audio", vcodec := "none", acodec := "mp3" }] :=
  claim3_no_av_two_entries [audioOnlyRaw] (by decide)

/-! ## Claim C4 -/

/-- C4, counterexample: the code's sanitization leaves a tab character
alone (`.replace(' ', '_')` only rewrites spaces), while the claim's
"replace internal whitespace with underscores" transformation rewrites it. -/
theorem claim4_counterexample : sanitizeTitle "a\tb" ≠ sanitizeClaimed "a\tb" := by
  decide

/-- C4 (amended): the sanitized title equals the title with every character
outside word characters, whitespace and hyphen removed, then trimmed, then
each internal *space* character replaced with an underscore (other
whitespace characters are kept verbatim); in particular
"Cat's Video: Part #1!" sanitizes to "Cats_Video_Part_1". -/
theorem claim4_sanitization (s : String) :
    sanitizeTitle s = sanitizeAmended s ∧
    sanitizeTitle "Cat's Video: Part #1!" = "Cats_Video_Part_1" :=
  ⟨rfl, by decide⟩

/-! ## Claim C8: the curation pass only mutates `format_note` -/

theorem claimBucket_map {α β : Type} (e : α → β) (h : Nat) (f : α) :
    ∀ m : List (Nat × Option α),
      claimBucket h (e f) (m.map (fun p => (p.1, p.2.map e))) =
        (claimBucket h f m).map (fun p => (p.1, p.2.map e)) := by
  intro m
  induction m with
  | nil => rfl
  | cons p rest ih =>
    obtain ⟨k, slot⟩ := p
    by_cases hle : h ≤ k
    · cases slot <;> simp [claimBucket, hle]
    · simp [claimBucket, hle, ih]

theorem assignStep_map {α β : Type} (e : α → β) (hα : α → Option Nat)
    (hβ : β → Option Nat) (hcomp : ∀ a, hβ (e a) = hα a)
    (m : List (Nat × Option α)) (f : α) :
    assignStep hβ (m.map (fun p => (p.1, p.2.map e))) (e f) =
      (assignStep hα m f).map (fun p => (p.1, p.2.map e)) := by
  unfold assignStep
  rw [hcomp]
  cases hα f with
  | none => rfl
  | some h => exact claimBucket_map e h f m

theorem assignBucketsP_map {α β : Type} (e : α → β) (hα : α → Option Nat)
    (hβ : β → Option Nat) (hcomp : ∀ a, hβ (e a) = hα a) (l : List α) :
    assignBucketsP hβ (l.map e) =
      (assignBucketsP hα l).map (fun p => (p.1, p.2.map e)) := by
  unfold assignBucketsP
  have hinit : initBuckets β = (initBuckets α).map (fun p => (p.1, p.2.map e)) := by
    simp [initBuckets]
  rw [hinit]
  generalize initBuckets α = m
  induction l generalizing m with
  | nil => rfl
  | cons f l ih =>
    rw [List.map_cons, List.foldl_cons, List.foldl_cons,
      assignStep_map e hα hβ hcomp m f, ih]

theorem avIndexed_map_erase (fmts : List MediaFormat) :
    avIndexed (fmts.map eraseNote) = (avIndexed fmts).map (Prod.map id eraseNote) := by
  unfold avIndexed
  rw [List.enum_map, List.filter_map]
  have hpred : ((fun p : Nat × MediaFormat => isAV p.2) ∘ Prod.map id eraseNote) =
      (fun p : Nat × MediaFormat => isAV p.2) := funext fun p => rfl
  rw [hpred]

theorem curatedList_map_erase :
    ∀ m : List (Nat × Option (Nat × MediaFormat)),
      curatedList (m.map (fun p => (p.1, p.2.map (Prod.map id eraseNote)))) =
        curatedList m := by
  intro m
  induction m with
  | nil => rfl
  | cons p rest ih =>
    obtain ⟨r, slot⟩ := p
    cases slot with
    | none => exact ih
    | some q => exact congrArg (List.cons _) ih

theorem resolveState_fst_erase (fmts : List MediaFormat) :
    (resolveState (fmts.map eraseNote)).1 = (resolveState fmts).1 := by
  have h1 : assignedBuckets (fmts.map eraseNote) =
      (assignedBuckets fmts).map
        (fun p => (p.1, p.2.map (Prod.map id eraseNote))) := by
    unfold assignedBuckets
    rw [avIndexed_map_erase]
    exact assignBucketsP_map (Prod.map id eraseNote) heightOfIdx heightOfIdx
      (fun a => rfl) (avIndexed fmts)
  have hfst : ∀ x, (resolveState x).1 =
      (if (curatedList (assignedBuckets x)).isEmpty then [bestEntry]
        else curatedList (assignedBuckets x)) ++ [audioEntry] := fun x => rfl
  rw [hfst, hfst, h1, curatedList_map_erase]

theorem resolveState_snd_erase (fmts : List MediaFormat) :
    (resolveState fmts).2.map eraseNote = fmts.map eraseNote := by
  have hsnd : (resolveState fmts).2 = fmts.enum.map (fun p =>
      match noteFor (assignedBuckets fmts) p.1 with
      | some s => setNote s p.2
      | none => p.2) := rfl
  rw [hsnd, List.map_map]
  have hcomp : (eraseNote ∘ fun p : Nat × MediaFormat =>
      match noteFor (assignedBuckets fmts) p.1 with
      | some s => setNote s p.2
      | none => p.2) = (fun p : Nat × MediaFormat => eraseNote p.2) := by
    funext p
    show eraseNote (match noteFor (assignedBuckets fmts) p.1 with
      | some s => setNote s p.2
      | none => p.2) = eraseNote p.2
    cases noteFor (assignedBuckets fmts) p.1 <;> rfl
  rw [hcomp]
  have hsplit : (fun p : Nat × MediaFormat => eraseNote p.2) =
      (eraseNote ∘ Prod.snd) := rfl
  rw [hsplit, ← List.map_map, List.enum_map_snd]

/-- C8: running the curation pass a second time, on the raw list as left
behind by the first run's in-place `format_note` mutations, produces the
same curated menu as the first run: the pass reads only fields it never
mutates. -/
theorem claim8_resolver_idempotent (fmts : List MediaFormat) :
    resolve (resolveState fmts).2 = resolve fmts := by
  show (resolveState (resolveState fmts).2).1 = (resolveState fmts).1
  calc (resolveState (resolveState fmts).2).1
      = (resolveState ((resolveState fmts).2.map eraseNote)).1 :=
        (resolveState_fst_erase _).symm
    _ = (resolveState (fmts.map eraseNote)).1 := by rw [resolveState_snd_erase]
    _ = (resolveState fmts).1 := resolveState_fst_erase fmts

/-! ## Job-table lemmas -/

theorem findKey_cons_true {p : String × DownloadInfo} {rest : List (String × DownloadInfo)}
    {k : String} (h : (p.1 == k) = true) :
    List.find? (fun q => q.1 == k) (p :: rest) = some p :=
  @List.find?_cons_of_pos _ (fun q => q.1 == k) p rest h

theorem findKey_cons_false {p : String × DownloadInfo} {rest : List (String × DownloadInfo)}
    {k : String} (h : (p.1 == k) = false) :
    List.find? (fun q => q.1 == k) (p :: rest) = List.find? (fun q => q.1 == k) rest :=
  @List.find?_cons_of_neg _ (fun q => q.1 == k) p rest (by simp [h])

theorem findJob_map_replace (k : String) (v : DownloadInfo) :
    ∀ t : List (String × DownloadInfo),
      (t.find? (fun p => p.1 == k)).isSome = true →
      (t.map (fun p => if p.1 == k then (k, v) else p)).find? (fun p => p.1 == k) =
        some (k, v) := by
  intro t
  induction t with
  | nil => intro h; simp at h
  | cons p rest ih =>
    intro h
    by_cases h1 : (p.1 == k) = true
    · rw [List.map_cons, if_pos h1]
      exact findKey_cons_true (by simp)
    · have h1' : (p.1 == k) = false := by simpa using h1
      rw [List.map_cons, if_neg h1, findKey_cons_false h1']
      rw [findKey_cons_false h1'] at h
      exact ih h

theorem lookupJob_insertJob_self (t : List (String × DownloadInfo)) (k : String)
    (v : DownloadInfo) : lookupJob (insertJob t k v) k = some v := by
  unfold insertJob
  by_cases hs : (t.find? (fun p => p.1 == k)).isSome = true
  · rw [if_pos hs]
    unfold lookupJob
    rw [findJob_map_replace k v t hs]
    rfl
  · rw [if_neg hs]
    unfold lookupJob
    rw [List.find?_append]
    have hn : t.find? (fun p => p.1 == k) = none := by
      cases hf : t.find? (fun p => p.1 == k) with
      | none => rfl
      | some p => rw [hf] at hs; simp at hs
    rw [hn, Option.none_or, findKey_cons_true (by simp)]
    rfl

theorem lookupJob_insertJob_ne (t : List (String × DownloadInfo)) (k k' : String)
    (v : DownloadInfo) (hne : k' ≠ k) :
    lookupJob (insertJob t k v) k' = lookupJob t k' := by
  have hkk' : ((k : String) == k') = false := by
    simpa using fun hkk => hne hkk.symm
  unfold insertJob
  by_cases hs : (t.find? (fun p => p.1 == k)).isSome = true
  · rw [if_pos hs]
    unfold lookupJob
    have hmap : ∀ t' : List (String × DownloadInfo),
        (t'.map (fun p => if p.1 == k then (k, v) else p)).find? (fun p => p.1 == k') =
          t'.find? (fun p => p.1 == k') := by
      intro t'
      induction t' with
      | nil => rfl
      | cons p rest ih =>
        by_cases h1 : (p.1 == k) = true
        · have hp : p.1 = k := by simpa using h1
          have hpk' : (p.1 == k') = false := by rw [hp]; exact hkk'
          rw [List.map_cons, if_pos h1, findKey_cons_false hkk', findKey_cons_false hpk',
            ih]
        · rw [List.map_cons, if_neg h1]
          by_cases h2 : (p.1 == k') = true
          · rw [findKey_cons_true h2, findKey_cons_true h2]
          · have h2' : (p.1 == k') = false := by simpa using h2
            rw [findKey_cons_false h2', findKey_cons_false h2', ih]
    rw [hmap]
  · rw [if_neg hs]
    unfold lookupJob
    rw [List.find?_append]
    have hone : List.find? (fun p => p.1 == k') [(k, v)] = none := by
      rw [findKey_cons_false hkk']
      rfl
    rw [hone]
    cases t.find? (fun p => p.1 == k') <;> rfl

/-! ## Claim C6 -/

/-- C6: retrieval by job id returns 404 for an unknown id, 400 for a job
whose status is not "completed", 500 when re-deriving the filename fails,
and otherwise streams the stored output file under the computed filename
with an `audio/*` content type exactly when the container is mp3 and a
`video/*` content type otherwise. -/
theorem claim6_get_file_contract (table : List (String × DownloadInfo)) (id : String)
    (tf : Except Unit (Option String)) :
    (lookupJob table id = none → get_file table id tf = .notFound) ∧
    (∀ info, lookupJob table id = some info → info.status ≠ "completed" →
      get_file table id tf = .notReady) ∧
    (∀ info, lookupJob table id = some info → info.status = "completed" →
      tf = .error () → get_file table id tf = .serverError) ∧
    (∀ info t, lookupJob table id = some info → info.status = "completed" →
      tf = .ok t →
      get_file table id tf = .file info.output_file
        (get_platform info.url ++ "_" ++ sanitizeTitle (t.getD "video") ++ "." ++ info.ext)
        ((if info.ext == "mp3" then "audio" else "video") ++ "/" ++ info.ext)) := by
  refine ⟨?_, ?_, ?_, ?_⟩
  · intro h
    unfold get_file
    rw [h]
  · intro info h hst
    unfold get_file
    rw [h]
    have : (info.status != "completed") = true := by simpa using hst
    simp [this]
  · intro info h hst htf
    unfold get_file
    rw [h, htf]
    have : (info.status != "completed") = false := by simpa using hst
    simp [this]
  · intro info t h hst htf
    unfold get_file
    rw [h, htf]
    have : (info.status != "completed") = false := by simpa using hst
    simp [this]

theorem claim6_witness :
    get_file jobTable "missing" (.ok (some "T")) = .notFound ∧
    get_file jobTable "pending" (.ok (some "T")) = .notReady ∧
    get_file jobTable "done" (.error ()) = .serverError ∧
    get_file jobTable "done" (.ok (some "My Title")) =
      .file "/tmp/job1.mp4" "youtube_My_Title.mp4" "video/mp4" := by
  refine ⟨(claim6_get_file_contract jobTable "missing" _).1 (by decide),
    (claim6_get_file_contract jobTable "pending" _).2.1 pendingJob (by decide) (by decide),
    (claim6_get_file_contract jobTable "done" _).2.2.1 doneJob (by decide) (by decide) rfl,
    ?_⟩
  have h4 := (claim6_get_file_contract jobTable "done" (.ok (some "My Title"))).2.2.2
    doneJob (some "My Title") (by decide) (by decide) rfl
  rw [h4]
  decide

/-! ## Claim C7 -/

/-- C7: a `POST /download` whose url or format field is missing or empty,
or whose url fails validation, is answered with 400 and leaves the job
table exactly as it was; no job entry and no history row is created (the
generated id is never stored, whatever it would have been). -/
theorem claim7_invalid_rejected (table : List (String × DownloadInfo))
    (url? format? : Option String) (tempDir newId : String)
    (extract : Except Unit ExtractInfo) (dl : Except Unit Unit) (asz : Option Nat)
    (h : isBlank url? = true ∨ isBlank format? = true ∨
      validate_url (url?.getD "") = false) :
    download_route table url? format? tempDir newId extract dl asz =
      (.badRequest, table, none) := by
  unfold download_route
  by_cases hb : (isBlank url? || isBlank format?) = true
  · simp [hb]
  · have hbu : isBlank url? = false := by
      cases hu : isBlank url? with
      | false => rfl
      | true => exact absurd (by simp [hu]) hb
    have hbf : isBlank format? = false := by
      cases hf : isBlank format? with
      | false => rfl
      | true => exact absurd (by simp [hf]) hb
    have hv : validate_url (url?.getD "") = false := by
      rcases h with h | h | h
      · rw [h] at hbu; cases hbu
      · rw [h] at hbf; cases hbf
      · exact h
    simp [hbu, hbf, hv]

theorem claim7_witness :
    download_route [] (some "https://evil.com/watch?v=x") (some "22") "/tmp" "id1"
      (.error ()) (.error ()) none = (.badRequest, [], none) :=
  claim7_invalid_rejected [] _ _ "/tmp" "id1" (.error ()) (.error ()) none
    (Or.inr (Or.inr (by decide)))

/-! ## Claim C9 -/

theorem download_route_lookup_other (t : List (String × DownloadInfo))
    (u? f? : Option String) (td id2 : String) (ex : Except Unit ExtractInfo)
    (dl : Except Unit Unit) (asz : Option Nat) (k : String) (hk : k ≠ id2) :
    lookupJob (download_route t u? f? td id2 ex dl asz).2.1 k = lookupJob t k := by
  unfold download_route
  by_cases hb : (isBlank u? || isBlank f?) = true
  · simp [hb]
  · have hb' : (isBlank u? || isBlank f?) = false := by simpa using hb
    by_cases hv : validate_url (u?.getD "") = true
    · cases ex with
      | error e => simp [hb', hv]
      | ok info =>
        cases dl with
        | error e =>
          simp only [hb', hv, Bool.false_eq_true, if_false, Bool.not_true, Bool.not_false,
            if_true]
          rw [lookupJob_insertJob_ne _ _ _ _ hk]
        | ok u =>
          simp only [hb', hv, Bool.false_eq_true, if_false, Bool.not_true, Bool.not_false,
            if_true]
          rw [lookupJob_insertJob_ne _ _ _ _ hk, lookupJob_insertJob_ne _ _ _ _ hk]
    · have hv' : validate_url (u?.getD "") = false := by simpa using hv
      simp [hb', hv']

/-- C9: when `ydl.download` raises after the job entry has been recorded,
the route answers 500, the entry stays in the table with status
"downloading" (there is no transition to a failed state and no removal
anywhere in the code), no history row is written, every retrieval of that
id keeps answering 400 NotReady, and later downloads under other fresh ids
leave the stuck entry untouched. -/
theorem claim9_failed_download_never_finalized (table : List (String × DownloadInfo))
    (u f tempDir newId : String) (info : ExtractInfo) (asz : Option Nat)
    (hu : (u == "") = false) (hf : (f == "") = false)
    (hv : validate_url u = true)
    (hfresh : table.find? (fun p => p.1 == newId) = none) :
    download_route table (some u) (some f) tempDir newId (.ok info) (.error ()) asz =
      (.serverError, table ++ [(newId, recordedEntry u f tempDir newId info)], none) ∧
    (recordedEntry u f tempDir newId info).status = "downloading" ∧
    (recordedEntry u f tempDir newId info).url = u ∧
    (recordedEntry u f tempDir newId info).format_id = f ∧
    (∀ tf, get_file (table ++ [(newId, recordedEntry u f tempDir newId info)]) newId tf =
      .notReady) ∧
    (∀ u2 f2 td2 id2 ex2 dl2 as2, id2 ≠ newId →
      lookupJob
        (download_route (table ++ [(newId, recordedEntry u f tempDir newId info)])
          u2 f2 td2 id2 ex2 dl2 as2).2.1 newId =
        some (recordedEntry u f tempDir newId info)) := by
  have hblank : (isBlank (some u) || isBlank (some f)) = false := by
    simp [isBlank, hu, hf]
  have hins : insertJob table newId (recordedEntry u f tempDir newId info) =
      table ++ [(newId, recordedEntry u f tempDir newId info)] := by
    unfold insertJob
    rw [hfresh]
    rfl
  have hlook : lookupJob (table ++ [(newId, recordedEntry u f tempDir newId info)]) newId =
      some (recordedEntry u f tempDir newId info) := by
    rw [← hins]
    exact lookupJob_insertJob_self table newId _
  refine ⟨?_, rfl, rfl, rfl, ?_, ?_⟩
  · unfold download_route
    simp only [hblank, Bool.false_eq_true, if_false, Option.getD_some, hv, Bool.not_true,
      if_true, hins]
  · intro tf
    unfold get_file
    rw [hlook]
    rfl
  · intro u2 f2 td2 id2 ex2 dl2 as2 hid
    rw [download_route_lookup_other _ _ _ _ _ _ _ _ newId (fun hh => hid hh.symm)]
    exact hlook

theorem claim9_witness :
    download_route [] (some "https://youtu.be/abc") (some "A") "/tmp" "job1"
      (.ok wInfo) (.error ()) none =
      (.serverError, [("job1", recordedEntry "https://youtu.be/abc" "A" "/tmp" "job1" wInfo)],
        none) ∧
    get_file [("job1", recordedEntry "https://youtu.be/abc" "A" "/tmp" "job1" wInfo)] "job1"
      (.ok (some "T")) = .notReady := by
  have h := claim9_failed_download_never_finalized [] "https://youtu.be/abc" "A" "/tmp"
    "job1" wInfo none (by decide) (by decide) (by decide) (by decide)
  exact ⟨h.1, h.2.2.2.2.1 (.ok (some "T"))⟩

/-! ## Claim C5 -/

/-- C5: for every URL whose lower-cased hostname is in some platform's
allow-list, `validate_url` answers true as soon as one of that platform's
patterns matches the URL, and answers false when none does — in which case
`get_platform` still returns that platform's tag, which is never
"unknown". -/
theorem claim5_validate_and_classify (url : String) (p : Platform)
    (hp : p ∈ platforms)
    (hd : lowerString (urlsplit url).netloc ∈ p.domains) :
    ((∃ r ∈ p.patterns, reSearch r url.data = true) → validate_url url = true) ∧
    ((∀ r ∈ p.patterns, reSearch r url.data = false) →
      validate_url url = false ∧ get_platform url = p.name ∧ p.name ≠ "unknown") := by
  constructor
  · rintro ⟨r, hr, hmatch⟩
    show validateHost (lowerString (urlsplit url).netloc) url = true
    apply List.any_eq_true.mpr
    refine ⟨p, hp, ?_⟩
    rw [Bool.and_eq_true]
    exact ⟨List.any_eq_true.mpr ⟨_, hd, by simp⟩, List.any_eq_true.mpr ⟨r, hr, hmatch⟩⟩
  · intro hnone
    show validateHost (lowerString (urlsplit url).netloc) url = false ∧
      platformOfHost (lowerString (urlsplit url).netloc) = p.name ∧ p.name ≠ "unknown"
    have hd' := hd
    generalize hg : lowerString (urlsplit url).netloc = hn at hd' ⊢
    simp only [platforms, List.mem_cons, List.not_mem_nil, or_false] at hp
    rcases hp with rfl | rfl | rfl | rfl | rfl | rfl
    · have h1 : reSearch ytPattern1 url.data = false := hnone ytPattern1 (by simp [ytPlatform])
      have h2 : reSearch ytPattern2 url.data = false := hnone ytPattern2 (by simp [ytPlatform])
      simp only [ytPlatform, List.mem_cons, List.not_mem_nil, or_false] at hd'
      rcases hd' with rfl | rfl | rfl | rfl <;>
        exact ⟨by simp [validateHost, platforms, ytPlatform, igPlatform, fbPlatform,
          twPlatform, ttPlatform, rdPlatform, h1, h2], by decide, by decide⟩
    · have h1 : reSearch igPattern1 url.data = false := hnone igPattern1 (by simp [igPlatform])
      have h2 : reSearch igPattern2 url.data = false := hnone igPattern2 (by simp [igPlatform])
      simp only [igPlatform, List.mem_cons, List.not_mem_nil, or_false] at hd'
      rcases hd' with rfl | rfl <;>
        exact ⟨by simp [validateHost, platforms, ytPlatform, igPlatform, fbPlatform,
          twPlatform, ttPlatform, rdPlatform, h1, h2], by decide, by decide⟩
    · have h1 : reSearch fbPattern1 url.data = false := hnone fbPattern1 (by simp [fbPlatform])
      have h2 : reSearch fbPattern2 url.data = false := hnone fbPattern2 (by simp [fbPlatform])
      have h3 : reSearch fbPattern3 url.data = false := hnone fbPattern3 (by simp [fbPlatform])
      simp only [fbPlatform, List.mem_cons, List.not_mem_nil, or_false] at hd'
      rcases hd' with rfl | rfl | rfl | rfl | rfl <;>
        exact ⟨by simp [validateHost, platforms, ytPlatform, igPlatform, fbPlatform,
          twPlatform, ttPlatform, rdPlatform, h1, h2, h3], by decide, by decide⟩
    · have h1 : reSearch twPattern1 url.data = false := hnone twPattern1 (by simp [twPlatform])
      have h2 : reSearch twPattern2 url.data = false := hnone twPattern2 (by simp [twPlatform])
      simp only [twPlatform, List.mem_cons, List.not_mem_nil, or_false] at hd'
      rcases hd' with rfl | rfl | rfl | rfl <;>
        exact ⟨by simp [validateHost, platforms, ytPlatform, igPlatform, fbPlatform,
          twPlatform, ttPlatform, rdPlatform, h1, h2], by decide, by decide⟩
    · have h1 : reSearch ttPattern1 url.data = false := hnone ttPattern1 (by simp [ttPlatform])
      have h2 : reSearch ttPattern2 url.data = false := hnone ttPattern2 (by simp [ttPlatform])
      simp only [ttPlatform, List.mem_cons, List.not_mem_nil, or_false] at hd'
      rcases hd' with rfl | rfl | rfl <;>
        exact ⟨by simp [validateHost, platforms, ytPlatform, igPlatform, fbPlatform,
          twPlatform, ttPlatform, rdPlatform, h1, h2], by decide, by decide⟩
    · have h1 : reSearch rdPattern1 url.data = false := hnone rdPattern1 (by simp [rdPlatform])
      have h2 : reSearch rdPattern2 url.data = false := hnone rdPattern2 (by simp [rdPlatform])
      simp only [rdPlatform, List.mem_cons, List.not_mem_nil, or_false] at hd'
      rcases hd' with rfl | rfl | rfl <;>
        exact ⟨by simp [validateHost, platforms, ytPlatform, igPlatform, fbPlatform,
          twPlatform, ttPlatform, rdPlatform, h1, h2], by decide, by decide⟩

theorem claim5_witness :
    validate_url "https://www.youtube.com/watch?v=dQw4w9WgXcQ" = true ∧
    validate_url "https://www.youtube.com/gaming" = false ∧
    get_platform "https://www.youtube.com/gaming" = "youtube" := by
  have hyt : ytPlatform ∈ platforms := by simp [platforms]
  have h1 := (claim5_validate_and_classify "https://www.youtube.com/watch?v=dQw4w9WgXcQ"
    ytPlatform hyt (by decide)).1 ⟨ytPattern1, by simp [ytPlatform], by decide⟩
  have h2 := (claim5_validate_and_classify "https://www.youtube.com/gaming"
    ytPlatform hyt (by decide)).2 (by
      intro r hr
      simp only [ytPlatform, List.mem_cons, List.not_mem_nil, or_false] at hr
      rcases hr with rfl | rfl
      · decide
      · decide)
  exact ⟨h1, h2.1, h2.2.1⟩

/-! ## Claim C10 -/

/-- C10: `re.search` is run against the entire URL string, so a URL whose
path (`/feed`) matches none of the platform's patterns is still accepted by
`validate_url` because a pattern occurrence sits in the query string. -/
theorem claim10_search_spans_whole_url :
    ytPlatform ∈ platforms ∧
    lowerString (urlsplit queryTrickUrl).netloc ∈ ytPlatform.domains ∧
    (∀ r ∈ ytPlatform.patterns,
      reSearch r (urlsplit queryTrickUrl).path.data = false) ∧
    validate_url queryTrickUrl = true :=
  ⟨by simp [platforms], by decide, by decide, by decide⟩
